import Mathlib

/-!
Verification of the sales-reports backend (customers / orders / order_items
schema, report aggregator, e2e test assertions) against its natural-language
specification.

The relational schema is embedded from `src/backend/app/models/`:
`customer.py`, `order.py`, `order_item.py`.  Columns become structure fields;
`Numeric(10, 2)` money values are represented exactly as an integer count of
hundredths (cents), never as floating point.  The storage layer's declared
constraints (CHECK constraints, UNIQUE, NOT NULL foreign keys, string length
limits, numeric precision) are embedded as validation performed by the insert
operations, matching the spec's statement that constraints are enforced by
the storage layer at write time.  `ondelete="CASCADE"` becomes an explicit
cascading delete operation.
-/

/-- Row of the `customers` table (`customer.py`).  `created_at` is the
server-assigned timestamp, modelled as an abstract tick count. -/
structure Customer where
  id : Nat
  name : String
  email : String
  company : Option String
  created_at : Nat
deriving DecidableEq, Repr

/-- Row of the `orders` table (`order.py`). -/
structure Order where
  id : Nat
  customer_id : Nat
  order_date : Nat
  status : String
  notes : Option String
deriving DecidableEq, Repr

/-- Row of the `order_items` table (`order_item.py`).  `unit_price` is the
`Numeric(10, 2)` column, held exactly as an integer number of hundredths. -/
structure OrderItem where
  id : Nat
  order_id : Nat
  product_name : String
  quantity : Int
  unit_price : Int
deriving DecidableEq, Repr

/-- The three tables of the relational store. -/
structure DB where
  customers : List Customer
  orders : List Order
  order_items : List OrderItem
deriving DecidableEq, Repr

/-- The `check_status_values` CHECK constraint of `order.py`:
status IN ('pending', 'processing', 'shipped', 'delivered', 'cancelled'). -/
def validStatus (s : String) : Bool :=
  s == "pending" || s == "processing" || s == "shipped" ||
    s == "delivered" || s == "cancelled"

/-- Column constraints of `customers` enforceable row-locally:
`name String(100)`, `email String(255)`, `company String(100)` nullable. -/
def goodCustomer (c : Customer) : Bool :=
  c.name.length ≤ 100 && c.email.length ≤ 255 &&
    (match c.company with
     | none => true
     | some s => s.length ≤ 100)

/-- Column constraints of `orders` enforceable row-locally:
`status String(20)` plus the `check_status_values` CHECK constraint. -/
def goodOrder (o : Order) : Bool :=
  validStatus o.status && o.status.length ≤ 20

/-- Column constraints of `order_items` enforceable row-locally:
`check_positive_quantity` (quantity > 0), `check_non_negative_price`
(unit_price >= 0), `product_name String(200)`, and the `Numeric(10, 2)`
range (absolute value below 10^8, i.e. below 10^10 hundredths). -/
def goodItem (it : OrderItem) : Bool :=
  0 < it.quantity && 0 ≤ it.unit_price &&
    it.unit_price.natAbs < 10 ^ 10 && it.product_name.length ≤ 200

/-- Insert into `customers`: the storage layer rejects rows violating the
column limits, the UNIQUE constraint on `email`, or primary-key uniqueness. -/
def insertCustomer (db : DB) (c : Customer) : Option DB :=
  if goodCustomer c
      && db.customers.all (fun c0 => c0.email != c.email)
      && db.customers.all (fun c0 => c0.id != c.id)
  then some { db with customers := db.customers ++ [c] }
  else none

/-- Insert into `orders`: the storage layer rejects rows violating the
CHECK constraint on `status`, the NOT NULL foreign key to `customers`,
or primary-key uniqueness. -/
def insertOrder (db : DB) (o : Order) : Option DB :=
  if goodOrder o
      && db.customers.any (fun c => c.id == o.customer_id)
      && db.orders.all (fun o0 => o0.id != o.id)
  then some { db with orders := db.orders ++ [o] }
  else none

/-- Insert into `order_items`: the storage layer rejects rows violating the
quantity/price CHECK constraints, the numeric precision, the NOT NULL
foreign key to `orders`, or primary-key uniqueness. -/
def insertOrderItem (db : DB) (it : OrderItem) : Option DB :=
  if goodItem it
      && db.orders.any (fun o => o.id == it.order_id)
      && db.order_items.all (fun i0 => i0.id != it.id)
  then some { db with order_items := db.order_items ++ [it] }
  else none

/-- Delete a customer row.  Per `ondelete="CASCADE"` on
`Order.customer_id` and `OrderItem.order_id`, the delete removes every
order referencing the customer and every order item referencing one of
those removed orders. -/
def deleteCustomer (db : DB) (cid : Nat) : DB :=
  let deletedOrderIds :=
    (db.orders.filter (fun o => o.customer_id == cid)).map (fun o => o.id)
  { customers := db.customers.filter (fun c => c.id != cid)
    orders := db.orders.filter (fun o => o.customer_id != cid)
    order_items :=
      db.order_items.filter (fun it => !(deletedOrderIds.contains it.order_id)) }

/-- A write request against the store. -/
inductive Op where
  | insC (c : Customer)
  | insO (o : Order)
  | insI (it : OrderItem)
  | delC (cid : Nat)
deriving DecidableEq, Repr

/-- Apply one request: a rejected insert leaves the store unchanged
(every operation either fully succeeds or fails as a whole). -/
def applyOp (db : DB) (op : Op) : DB :=
  match op with
  | .insC c => (insertCustomer db c).getD db
  | .insO o => (insertOrder db o).getD db
  | .insI it => (insertOrderItem db it).getD db
  | .delC cid => deleteCustomer db cid

/-- The empty store. -/
def emptyDB : DB :=
  { customers := [], orders := [], order_items := [] }

/-- The store reached from empty by a sequence of requests: the set of
persistable states. -/
def runOps (ops : List Op) : DB :=
  ops.foldl applyOp emptyDB

/-- Referential integrity of `order_items` toward `orders`: every item's
`order_id` references an existing order. -/
def itemsHaveOrders (db : DB) : Bool :=
  db.order_items.all (fun it => db.orders.any (fun o => o.id == it.order_id))

/-- Primary-key uniqueness over a customer list. -/
def distinctIds : List Customer → Bool
  | [] => true
  | c :: rest => rest.all (fun x => x.id != c.id) && distinctIds rest

/-- One entry of the report array (spec section 4.2): order_id,
customer_name, item_count, order_date, status, total. -/
structure ReportEntry where
  order_id : Nat
  customer_name : String
  item_count : Nat
  order_date : Nat
  status : String
  total : Int
deriving DecidableEq, Repr

/-- Response metadata (spec section 4.2): total_orders,
execution_time_ms, query_count. -/
structure Metadata where
  total_orders : Nat
  execution_time_ms : Int
  query_count : Nat
deriving DecidableEq, Repr

/-- The aggregator's output shape: report array plus metadata. -/
structure ReportResponse where
  report : List ReportEntry
  metadata : Metadata
deriving DecidableEq, Repr

/-- Modelled from the spec: the report-aggregator service code behind
`GET /orders/report` is not among the source files (only the schema models
and the e2e test are).  Per spec section 4.2, for each Order the entry
carries the order's id, date and status, the related Customer's name,
the count of related OrderItems, and the sum of quantity times unit_price
across related OrderItems. -/
def reportEntryFor (db : DB) (o : Order) : ReportEntry :=
  let items := db.order_items.filter (fun it => it.order_id == o.id)
  { order_id := o.id
    customer_name :=
      match db.customers.find? (fun c => c.id == o.customer_id) with
      | some c => c.name
      | none => ""
    item_count := items.length
    order_date := o.order_date
    status := o.status
    total := (items.map (fun it => it.quantity * it.unit_price)).sum }

/-- Modelled from the spec: the aggregator reads the full order set and
emits one report entry per order; `total_orders` comes from the listed
orders, `execution_time_ms` is the non-negative measured wall-clock time,
and `query_count` counts storage round-trips of the N+1 access pattern
(one query listing the orders, one more per order). -/
def generateReport (db : DB) (elapsed : Nat) : ReportResponse :=
  { report := db.orders.map (reportEntryFor db)
    metadata :=
      { total_orders := db.orders.length
        execution_time_ms := Int.ofNat elapsed
        query_count := 1 + db.orders.length } }

/-- The value-level assertions of `test_orders_report_endpoint_e2e`
(`src/backend/tests/test_sales_reports_e2e.py`): a 200 response whose
report is non-empty, whose first entry has a non-empty customer_name and
positive item_count, and whose metadata satisfies
total_orders == len(report), execution_time_ms >= 0 and query_count > 0. -/
def testOrdersReportPasses (r : ReportResponse) : Bool :=
  decide (0 < r.report.length) &&
    (match r.report.head? with
     | some e => decide (0 < e.customer_name.length) && decide (0 < e.item_count)
     | none => false) &&
    decide (r.metadata.total_orders = r.report.length) &&
    decide (0 ≤ r.metadata.execution_time_ms) &&
    decide (0 < r.metadata.query_count)

/-- Example customer. -/
def exAlice : Customer :=
  { id := 1, name := "Alice", email := "alice@example.com",
    company := none, created_at := 0 }

/-- Example order of `exAlice`. -/
def exOrder1 : Order :=
  { id := 1, customer_id := 1, order_date := 1, status := "pending",
    notes := none }

/-- Second example order of `exAlice`. -/
def exOrder2 : Order :=
  { id := 2, customer_id := 1, order_date := 2, status := "shipped",
    notes := none }

/-- Example item of `exOrder1`: 2 units at 2.50 each. -/
def exItem1 : OrderItem :=
  { id := 1, order_id := 1, product_name := "Widget", quantity := 2,
    unit_price := 250 }

/-- Example item of `exOrder2`: 1 unit at 9.98. -/
def exItem2 : OrderItem :=
  { id := 2, order_id := 2, product_name := "Gadget", quantity := 1,
    unit_price := 998 }

/-- Example item of `exOrder2`: 2 units at 2.00 each. -/
def exItem3 : OrderItem :=
  { id := 3, order_id := 2, product_name := "Gizmo", quantity := 2,
    unit_price := 200 }

/-- Spec section 8 example dataset: one Customer with 2 Orders whose items
total 5.00 and 13.98 (500 and 1398 hundredths). -/
def exOps1 : List Op :=
  [.insC exAlice, .insO exOrder1, .insO exOrder2,
   .insI exItem1, .insI exItem2, .insI exItem3]

/-- The store holding the spec section 8 example dataset. -/
def exDB1 : DB := runOps exOps1

lemma goodCustomer_limits {c : Customer} (h : goodCustomer c = true) :
    c.name.length ≤ 100 ∧ c.email.length ≤ 255 ∧
      ∀ s, c.company = some s → s.length ≤ 100 := by
  simp only [goodCustomer, Bool.and_eq_true, decide_eq_true_eq] at h
  refine ⟨h.1.1, h.1.2, fun s hs => ?_⟩
  rw [hs] at h
  simpa using h.2

lemma goodOrder_limits {o : Order} (h : goodOrder o = true) :
    validStatus o.status = true ∧ o.status.length ≤ 20 := by
  simp only [goodOrder, Bool.and_eq_true, decide_eq_true_eq] at h
  exact h

lemma goodItem_limits {it : OrderItem} (h : goodItem it = true) :
    0 < it.quantity ∧ 0 ≤ it.unit_price ∧
      it.unit_price.natAbs < 10 ^ 10 ∧ it.product_name.length ≤ 200 := by
  simp only [goodItem, Bool.and_eq_true, decide_eq_true_eq] at h
  exact ⟨h.1.1.1, h.1.1.2, h.1.2, h.2⟩

lemma insertCustomer_eq_some {db : DB} {c : Customer} {db' : DB}
    (h : insertCustomer db c = some db') :
    goodCustomer c = true ∧
      (∀ c0 ∈ db.customers, c0.email ≠ c.email) ∧
      db' = { db with customers := db.customers ++ [c] } := by
  simp only [insertCustomer] at h
  split at h
  · rename_i hc
    simp only [Bool.and_eq_true, List.all_eq_true, bne_iff_ne] at hc
    exact ⟨hc.1.1, fun c0 h0 => hc.1.2 c0 h0, (Option.some.inj h).symm⟩
  · exact absurd h (by simp)

lemma insertOrder_eq_some {db : DB} {o : Order} {db' : DB}
    (h : insertOrder db o = some db') :
    goodOrder o = true ∧ db' = { db with orders := db.orders ++ [o] } := by
  simp only [insertOrder] at h
  split at h
  · rename_i hc
    simp only [Bool.and_eq_true] at hc
    exact ⟨hc.1.1, (Option.some.inj h).symm⟩
  · exact absurd h (by simp)

lemma insertOrderItem_eq_some {db : DB} {it : OrderItem} {db' : DB}
    (h : insertOrderItem db it = some db') :
    goodItem it = true ∧
      db' = { db with order_items := db.order_items ++ [it] } := by
  simp only [insertOrderItem] at h
  split at h
  · rename_i hc
    simp only [Bool.and_eq_true] at hc
    exact ⟨hc.1.1, (Option.some.inj h).symm⟩
  · exact absurd h (by simp)

/-- Rows that a sequence of requests can leave in the store all satisfy
their tables' declared row-local constraints, and customer emails are
pairwise distinct. -/
def tablesOk (db : DB) : Prop :=
  (∀ c ∈ db.customers, goodCustomer c = true) ∧
    (∀ o ∈ db.orders, goodOrder o = true) ∧
    (∀ it ∈ db.order_items, goodItem it = true) ∧
    db.customers.Pairwise (fun a b => a.email ≠ b.email)

lemma tablesOk_applyOp {db : DB} (op : Op) (h : tablesOk db) :
    tablesOk (applyOp db op) := by
  obtain ⟨hcu, hor, hit, hpw⟩ := h
  cases op with
  | insC c =>
    simp only [applyOp]
    cases hins : insertCustomer db c with
    | none => exact ⟨hcu, hor, hit, hpw⟩
    | some db' =>
      obtain ⟨hg, hem, rfl⟩ := insertCustomer_eq_some hins
      simp only [Option.getD_some]
      refine ⟨?_, hor, hit, ?_⟩
      · intro x hx
        rcases List.mem_append.1 hx with hx | hx
        · exact hcu x hx
        · rw [List.mem_singleton.1 hx]; exact hg
      · rw [List.pairwise_append]
        refine ⟨hpw, List.pairwise_singleton _ _, ?_⟩
        intro a ha b hb
        rw [List.mem_singleton.1 hb]
        exact hem a ha
  | insO o =>
    simp only [applyOp]
    cases hins : insertOrder db o with
    | none => exact ⟨hcu, hor, hit, hpw⟩
    | some db' =>
      obtain ⟨hg, rfl⟩ := insertOrder_eq_some hins
      refine ⟨hcu, ?_, hit, hpw⟩
      intro x hx
      rcases List.mem_append.1 hx with hx | hx
      · exact hor x hx
      · rw [List.mem_singleton.1 hx]; exact hg
  | insI it =>
    simp only [applyOp]
    cases hins : insertOrderItem db it with
    | none => exact ⟨hcu, hor, hit, hpw⟩
    | some db' =>
      obtain ⟨hg, rfl⟩ := insertOrderItem_eq_some hins
      refine ⟨hcu, hor, ?_, hpw⟩
      intro x hx
      rcases List.mem_append.1 hx with hx | hx
      · exact hit x hx
      · rw [List.mem_singleton.1 hx]; exact hg
  | delC cid =>
    refine ⟨?_, ?_, ?_, ?_⟩
    · intro x hx
      exact hcu x (List.mem_filter.1 hx).1
    · intro x hx
      exact hor x (List.mem_filter.1 hx).1
    · intro x hx
      exact hit x (List.mem_filter.1 hx).1
    · exact hpw.sublist (List.filter_sublist _)

lemma tablesOk_foldl (ops : List Op) (db : DB) (h : tablesOk db) :
    tablesOk (ops.foldl applyOp db) := by
  induction ops generalizing db with
  | nil => exact h
  | cons op rest ih => exact ih (applyOp db op) (tablesOk_applyOp op h)

lemma tablesOk_runOps (ops : List Op) : tablesOk (runOps ops) := by
  refine tablesOk_foldl ops emptyDB ?_
  refine ⟨?_, ?_, ?_, ?_⟩ <;> simp [emptyDB]

lemma find_customer_eq {l : List Customer} {c : Customer} {t : Nat}
    (hc : c ∈ l) (hct : c.id = t) (hids : distinctIds l = true) :
    l.find? (fun x => x.id == t) = some c := by
  induction l with
  | nil => cases hc
  | cons a rest ih =>
    simp only [distinctIds, Bool.and_eq_true, List.all_eq_true, bne_iff_ne] at hids
    rcases List.mem_cons.1 hc with rfl | hmem
    · have hpos : (c.id == t) = true := by rw [hct]; exact beq_self_eq_true t
      exact List.find?_cons_of_pos rest hpos
    · have hne : ¬ ((a.id == t) = true) := by
        simp only [beq_iff_eq]
        intro hat
        exact hids.1 c hmem (hct.trans hat.symm)
      rw [show List.find? (fun x => x.id == t) (a :: rest)
            = List.find? (fun x => x.id == t) rest from List.find?_cons_of_neg rest hne]
      exact ih hmem hids.2

/-- Store holding only `exAlice`. -/
def exDB5a : DB := { customers := [exAlice], orders := [], order_items := [] }

/-- `exDB5a` after inserting `exOrder1`. -/
def exDB5b : DB := { customers := [exAlice], orders := [exOrder1], order_items := [] }

/-- Second example customer, with a fresh email. -/
def exBob : Customer :=
  { id := 2, name := "Bob", email := "bob@example.com", company := none,
    created_at := 0 }

/-- `exDB5a` after inserting `exBob`. -/
def exDB7 : DB := { customers := [exAlice, exBob], orders := [], order_items := [] }

/-- C2: for every response of the report aggregator, `metadata.total_orders`
equals the length of the `report` array. -/
theorem report_total_orders_eq_length (db : DB) (elapsed : Nat) :
    (generateReport db elapsed).metadata.total_orders =
      (generateReport db elapsed).report.length := by
  simp [generateReport]

/-- A response whose metadata reports exactly one storage round-trip. -/
def exResp3 : ReportResponse :=
  { report := [{ order_id := 1, customer_name := "Alice", item_count := 1,
                 order_date := 0, status := "pending", total := 500 }]
    metadata := { total_orders := 1, execution_time_ms := 0, query_count := 1 } }

/-- C3 counterexample: a response with `query_count = 1` satisfies every
assertion of `test_orders_report_endpoint_e2e`, so the source test does NOT
assert `query_count > 1`; its line 78 asserts `query_count > 0`. -/
theorem test_query_count_one_passes :
    testOrdersReportPasses exResp3 = true ∧
      ¬ (1 < exResp3.metadata.query_count) := by decide

/-- C3 (amended): the source test for the report endpoint asserts that
`metadata.query_count` is strictly positive (its line 78), as a
demonstration artifact of the N+1 pattern. -/
theorem test_asserts_query_count_positive (r : ReportResponse)
    (h : testOrdersReportPasses r = true) : 0 < r.metadata.query_count := by
  simp only [testOrdersReportPasses, Bool.and_eq_true, decide_eq_true_eq] at h
  exact h.2

/-- Witness for C3 (amended) at the concrete response `exResp3`. -/
theorem test_asserts_query_count_positive_witness :
    0 < exResp3.metadata.query_count :=
  test_asserts_query_count_positive exResp3 (by decide)

/-- C5: an order insert succeeds only when `status` is one of the five
allowed values of the `check_status_values` constraint, and an insert
with any other status is rejected, leaving the store unchanged. -/
theorem order_status_checked :
    (∀ db o db', insertOrder db o = some db' → validStatus o.status = true) ∧
    (∀ db o, validStatus o.status = false → applyOp db (.insO o) = db) := by
  constructor
  · intro db o db' h
    exact (goodOrder_limits (insertOrder_eq_some h).1).1
  · intro db o h
    have hg : goodOrder o = false := by simp [goodOrder, h]
    simp [applyOp, insertOrder, hg]

/-- Witness for C5 at a concrete successful insert of `exOrder1`. -/
theorem order_status_checked_witness : validStatus exOrder1.status = true :=
  order_status_checked.1 exDB5a exOrder1 exDB5b (by decide)

/-- C6: an order-item insert succeeds only when `quantity > 0` and
`unit_price >= 0` (the two CHECK constraints), an insert violating either
bound is rejected leaving the store unchanged, and hence every persisted
order item satisfies both bounds. -/
theorem order_item_bounds_checked :
    (∀ db it db', insertOrderItem db it = some db' →
        0 < it.quantity ∧ 0 ≤ it.unit_price) ∧
    (∀ db it, ¬ (0 < it.quantity ∧ 0 ≤ it.unit_price) →
        applyOp db (.insI it) = db) ∧
    (∀ ops, ∀ it ∈ (runOps ops).order_items,
        0 < it.quantity ∧ 0 ≤ it.unit_price) := by
  refine ⟨?_, ?_, ?_⟩
  · intro db it db' h
    have hb := goodItem_limits (insertOrderItem_eq_some h).1
    exact ⟨hb.1, hb.2.1⟩
  · intro db it h
    have hg : goodItem it = false := by
      rw [Bool.eq_false_iff]
      intro ht
      have hb := goodItem_limits ht
      exact h ⟨hb.1, hb.2.1⟩
    simp [applyOp, insertOrderItem, hg]
  · intro ops it hit
    have hb := goodItem_limits ((tablesOk_runOps ops).2.2.1 it hit)
    exact ⟨hb.1, hb.2.1⟩

/-- Witness for C6 at the persisted concrete item `exItem1`. -/
theorem order_item_bounds_checked_witness :
    0 < exItem1.quantity ∧ 0 ≤ exItem1.unit_price :=
  order_item_bounds_checked.2.2 exOps1 exItem1 (by decide)

/-- C7: a customer insert whose email matches an already-persisted customer
is rejected (UNIQUE on `email`), a successful insert implies the email was
fresh, and hence persisted customers have pairwise distinct emails. -/
theorem customer_email_uniqueness :
    (∀ db c db', insertCustomer db c = some db' →
        ∀ c0 ∈ db.customers, c0.email ≠ c.email) ∧
    (∀ db c c0, c0 ∈ db.customers → c0.email = c.email →
        applyOp db (.insC c) = db) ∧
    (∀ ops, ((runOps ops).customers).Pairwise (fun a b => a.email ≠ b.email)) := by
  refine ⟨?_, ?_, ?_⟩
  · intro db c db' h
    exact (insertCustomer_eq_some h).2.1
  · intro db c c0 hmem heq
    have hall : db.customers.all (fun x => x.email != c.email) = false := by
      rw [Bool.eq_false_iff]
      intro ht
      rw [List.all_eq_true] at ht
      have hbne := ht c0 hmem
      rw [bne_iff_ne] at hbne
      exact hbne heq
    simp [applyOp, insertCustomer, hall]
  · intro ops
    exact (tablesOk_runOps ops).2.2.2

/-- Witness for C7 at a concrete successful insert of `exBob`. -/
theorem customer_email_uniqueness_witness :
    exAlice.email ≠ exBob.email :=
  customer_email_uniqueness.1 exDB5a exBob exDB7 (by decide) exAlice (by decide)

/-- C4: deleting a customer removes the customer row, every order
referencing it, and every order item referencing one of those orders;
assuming referential integrity of the items table, no orphaned item
remains (every surviving item still references a surviving order). -/
theorem delete_customer_cascades (db : DB) (cid : Nat)
    (hwf : itemsHaveOrders db = true) :
    (∀ c ∈ (deleteCustomer db cid).customers, c.id ≠ cid) ∧
    (∀ o ∈ (deleteCustomer db cid).orders, o.customer_id ≠ cid) ∧
    (∀ it ∈ (deleteCustomer db cid).order_items,
        ∀ o ∈ db.orders, o.customer_id = cid → it.order_id ≠ o.id) ∧
    (∀ it ∈ (deleteCustomer db cid).order_items,
        ∃ o ∈ (deleteCustomer db cid).orders, o.id = it.order_id) := by
  rw [itemsHaveOrders, List.all_eq_true] at hwf
  refine ⟨?_, ?_, ?_, ?_⟩
  · intro x hx
    have hm := List.mem_filter.1
      (show x ∈ db.customers.filter (fun c => c.id != cid) from hx)
    exact bne_iff_ne.1 hm.2
  · intro x hx
    have hm := List.mem_filter.1
      (show x ∈ db.orders.filter (fun o => o.customer_id != cid) from hx)
    exact bne_iff_ne.1 hm.2
  · intro it hit o ho hoc heq
    have hm := List.mem_filter.1
      (show it ∈ db.order_items.filter (fun x =>
          !(((db.orders.filter (fun o0 => o0.customer_id == cid)).map
              (fun o0 => o0.id)).contains x.order_id)) from hit)
    have hnc : List.elem it.order_id
        ((db.orders.filter (fun o0 => o0.customer_id == cid)).map
          (fun o0 => o0.id)) = false := by
      have h2 := hm.2
      rw [Bool.not_eq_true'] at h2
      exact h2
    have hoid : o.id ∈ (db.orders.filter
        (fun o0 => o0.customer_id == cid)).map (fun o0 => o0.id) :=
      List.mem_map.2 ⟨o, List.mem_filter.2 ⟨ho, by simp [hoc]⟩, rfl⟩
    rw [heq, List.elem_eq_true_of_mem hoid] at hnc
    exact Bool.noConfusion hnc
  · intro it hit
    have hm := List.mem_filter.1
      (show it ∈ db.order_items.filter (fun x =>
          !(((db.orders.filter (fun o0 => o0.customer_id == cid)).map
              (fun o0 => o0.id)).contains x.order_id)) from hit)
    have hnc : List.elem it.order_id
        ((db.orders.filter (fun o0 => o0.customer_id == cid)).map
          (fun o0 => o0.id)) = false := by
      have h2 := hm.2
      rw [Bool.not_eq_true'] at h2
      exact h2
    obtain ⟨o, ho, hoid⟩ := List.any_eq_true.1 (hwf it hm.1)
    have hoidn : o.id = it.order_id := beq_iff_eq.1 hoid
    have hne : o.customer_id ≠ cid := by
      intro hoc
      have hmem : it.order_id ∈ (db.orders.filter
          (fun o0 => o0.customer_id == cid)).map (fun o0 => o0.id) :=
        List.mem_map.2 ⟨o, List.mem_filter.2 ⟨ho, by simp [hoc]⟩, hoidn⟩
      rw [List.elem_eq_true_of_mem hmem] at hnc
      exact Bool.noConfusion hnc
    refine ⟨o, ?_, hoidn⟩
    show o ∈ db.orders.filter (fun o0 => o0.customer_id != cid)
    exact List.mem_filter.2 ⟨ho, bne_iff_ne.2 hne⟩

/-- Witness for C4 at the concrete store `exDB1`, deleting customer 1. -/
theorem delete_customer_cascades_witness :
    (∀ c ∈ (deleteCustomer exDB1 1).customers, c.id ≠ 1) ∧
    (∀ o ∈ (deleteCustomer exDB1 1).orders, o.customer_id ≠ 1) ∧
    (∀ it ∈ (deleteCustomer exDB1 1).order_items,
        ∀ o ∈ exDB1.orders, o.customer_id = 1 → it.order_id ≠ o.id) ∧
    (∀ it ∈ (deleteCustomer exDB1 1).order_items,
        ∃ o ∈ (deleteCustomer exDB1 1).orders, o.id = it.order_id) :=
  delete_customer_cascades exDB1 1 (by decide)

/-- C1: the report contains an entry for each order, whose `total` is the
sum of quantity times unit_price over the order's items, whose
`customer_name` is the related customer's name, and whose `item_count` is
the number of the order's items. -/
theorem report_entry_matches_order (db : DB) (elapsed : Nat) (o : Order)
    (ho : o ∈ db.orders) (c : Customer) (hc : c ∈ db.customers)
    (hcid : c.id = o.customer_id) (hids : distinctIds db.customers = true) :
    ∃ e ∈ (generateReport db elapsed).report,
      e.order_id = o.id ∧
      e.total = ((db.order_items.filter (fun it => it.order_id == o.id)).map
          (fun it => it.quantity * it.unit_price)).sum ∧
      e.customer_name = c.name ∧
      e.item_count =
        (db.order_items.filter (fun it => it.order_id == o.id)).length := by
  refine ⟨reportEntryFor db o, ?_, rfl, rfl, ?_, rfl⟩
  · show reportEntryFor db o ∈ db.orders.map (reportEntryFor db)
    exact List.mem_map.2 ⟨o, ho, rfl⟩
  · show (match db.customers.find? (fun x => x.id == o.customer_id) with
          | some c0 => c0.name
          | none => "") = c.name
    rw [find_customer_eq hc hcid hids]

/-- Witness for C1 at the spec section 8 example store: the report holds
exactly 2 entries with totals 500 and 1398 hundredths, `total_orders = 2`,
and the entry for `exOrder1` carries Alice's name and its item data. -/
theorem report_entry_matches_order_witness :
    ((generateReport exDB1 0).report.map (fun e => e.total) = [500, 1398] ∧
      (generateReport exDB1 0).metadata.total_orders = 2) ∧
    ∃ e ∈ (generateReport exDB1 0).report,
      e.order_id = exOrder1.id ∧
      e.total = ((exDB1.order_items.filter
          (fun it => it.order_id == exOrder1.id)).map
          (fun it => it.quantity * it.unit_price)).sum ∧
      e.customer_name = exAlice.name ∧
      e.item_count = (exDB1.order_items.filter
          (fun it => it.order_id == exOrder1.id)).length :=
  ⟨by decide,
    report_entry_matches_order exDB1 0 exOrder1 (by decide) exAlice
      (by decide) (by decide) (by decide)⟩

/-- Requests producing a non-empty dataset in which the customer has an
empty (but non-NULL) name and the order has no items — both accepted by
every declared constraint of the schema. -/
def exOps8 : List Op :=
  [.insC { id := 1, name := "", email := "anon@example.com", company := none,
           created_at := 0 },
   .insO { id := 1, customer_id := 1, order_date := 0, status := "pending",
           notes := none }]

/-- The store holding the `exOps8` dataset. -/
def exDB8 : DB := runOps exOps8

/-- C8 counterexample: on a non-empty, constraint-respecting dataset the
report can contain an entry whose `item_count` is 0 (an order with no
items) and whose `customer_name` is empty (a customer named `""`). -/
theorem report_positive_fields_counterexample :
    exDB8.orders ≠ [] ∧
      ∃ e ∈ (generateReport exDB8 0).report,
        e.item_count = 0 ∧ e.customer_name = "" := by decide

/-- C8 (amended): on a dataset where every customer has a non-empty name,
every order references an existing customer, and every order has at least
one item, every report entry has a positive `item_count` and a non-empty
`customer_name`. -/
theorem report_entries_positive_fields (db : DB) (elapsed : Nat)
    (hnames : ∀ c ∈ db.customers, c.name ≠ "")
    (hcust : ∀ o ∈ db.orders, ∃ c ∈ db.customers, c.id = o.customer_id)
    (hitems : ∀ o ∈ db.orders, ∃ it ∈ db.order_items, it.order_id = o.id) :
    ∀ e ∈ (generateReport db elapsed).report,
      0 < e.item_count ∧ e.customer_name ≠ "" := by
  intro e he
  obtain ⟨o, ho, rfl⟩ := List.mem_map.1
    (show e ∈ db.orders.map (reportEntryFor db) from he)
  constructor
  · obtain ⟨it, hitm, hoid⟩ := hitems o ho
    have hmem : it ∈ db.order_items.filter (fun x => x.order_id == o.id) :=
      List.mem_filter.2 ⟨hitm, by simp [hoid]⟩
    show 0 < (db.order_items.filter (fun x => x.order_id == o.id)).length
    exact List.length_pos_of_mem hmem
  · obtain ⟨c, hcm, hcid⟩ := hcust o ho
    have hsome : (db.customers.find? (fun x => x.id == o.customer_id)).isSome := by
      rw [List.find?_isSome]
      exact ⟨c, hcm, by simp [hcid]⟩
    obtain ⟨c0, hc0⟩ := Option.isSome_iff_exists.1 hsome
    have hc0m := List.mem_of_find?_eq_some hc0
    show (match db.customers.find? (fun x => x.id == o.customer_id) with
          | some c1 => c1.name
          | none => "") ≠ ""
    rw [hc0]
    exact hnames c0 hc0m

/-- Witness for C8 (amended) at the concrete store `exDB1` and the entry
of its first order. -/
theorem report_entries_positive_fields_witness :
    0 < (reportEntryFor exDB1 exOrder1).item_count ∧
      (reportEntryFor exDB1 exOrder1).customer_name ≠ "" :=
  report_entries_positive_fields exDB1 0 (by decide) (by decide) (by decide)
    (reportEntryFor exDB1 exOrder1) (by decide)

/-- C9: persisted rows respect the declared column lengths
(`name`/`company` at most 100, `email` at most 255, `status` at most 20,
`product_name` at most 200 characters), and an insert exceeding any of
these limits is rejected, leaving the store unchanged. -/
theorem string_length_limits :
    (∀ ops,
      (∀ c ∈ (runOps ops).customers,
          c.name.length ≤ 100 ∧ c.email.length ≤ 255 ∧
            ∀ s, c.company = some s → s.length ≤ 100) ∧
      (∀ o ∈ (runOps ops).orders, o.status.length ≤ 20) ∧
      (∀ it ∈ (runOps ops).order_items, it.product_name.length ≤ 200)) ∧
    (∀ db c, 100 < c.name.length → applyOp db (.insC c) = db) ∧
    (∀ db c, 255 < c.email.length → applyOp db (.insC c) = db) ∧
    (∀ db c s, c.company = some s → 100 < s.length →
        applyOp db (.insC c) = db) ∧
    (∀ db o, 20 < o.status.length → applyOp db (.insO o) = db) ∧
    (∀ db it, 200 < it.product_name.length → applyOp db (.insI it) = db) := by
  refine ⟨?_, ?_, ?_, ?_, ?_, ?_⟩
  · intro ops
    obtain ⟨hcu, hor, hit, -⟩ := tablesOk_runOps ops
    refine ⟨?_, ?_, ?_⟩
    · intro c hc
      exact goodCustomer_limits (hcu c hc)
    · intro o ho
      exact (goodOrder_limits (hor o ho)).2
    · intro x hx
      exact (goodItem_limits (hit x hx)).2.2.2
  · intro db c h
    have hg : goodCustomer c = false := by
      rw [Bool.eq_false_iff]
      intro ht
      exact absurd (goodCustomer_limits ht).1 (by omega)
    simp [applyOp, insertCustomer, hg]
  · intro db c h
    have hg : goodCustomer c = false := by
      rw [Bool.eq_false_iff]
      intro ht
      exact absurd (goodCustomer_limits ht).2.1 (by omega)
    simp [applyOp, insertCustomer, hg]
  · intro db c s hs h
    have hg : goodCustomer c = false := by
      rw [Bool.eq_false_iff]
      intro ht
      exact absurd ((goodCustomer_limits ht).2.2 s hs) (by omega)
    simp [applyOp, insertCustomer, hg]
  · intro db o h
    have hg : goodOrder o = false := by
      rw [Bool.eq_false_iff]
      intro ht
      exact absurd (goodOrder_limits ht).2 (by omega)
    simp [applyOp, insertOrder, hg]
  · intro db it h
    have hg : goodItem it = false := by
      rw [Bool.eq_false_iff]
      intro ht
      exact absurd (goodItem_limits ht).2.2.2 (by omega)
    simp [applyOp, insertOrderItem, hg]

/-- Witness for C9 at the persisted concrete customer `exAlice`. -/
theorem string_length_limits_witness :
    exAlice.name.length ≤ 100 ∧ exAlice.email.length ≤ 255 ∧
      ∀ s, exAlice.company = some s → s.length ≤ 100 :=
  (string_length_limits.1 exOps1).1 exAlice (by decide)

/-- C10: a successful order-item insert implies the stored `unit_price`
(held exactly as an integer count of hundredths) has absolute value below
10^10 hundredths, i.e. below 10^8 currency units, matching the
`Numeric(10, 2)` precision; an insert outside that range is rejected, and
every persisted item satisfies the bound. -/
theorem unit_price_precision_bound :
    (∀ db it db', insertOrderItem db it = some db' →
        it.unit_price.natAbs < 10 ^ 10) ∧
    (∀ db it, 10 ^ 10 ≤ it.unit_price.natAbs → applyOp db (.insI it) = db) ∧
    (∀ ops, ∀ it ∈ (runOps ops).order_items,
        it.unit_price.natAbs < 10 ^ 10) := by
  refine ⟨?_, ?_, ?_⟩
  · intro db it db' h
    exact (goodItem_limits (insertOrderItem_eq_some h).1).2.2.1
  · intro db it h
    have hg : goodItem it = false := by
      rw [Bool.eq_false_iff]
      intro ht
      exact absurd (goodItem_limits ht).2.2.1 (by omega)
    simp [applyOp, insertOrderItem, hg]
  · intro ops it hit
    exact (goodItem_limits ((tablesOk_runOps ops).2.2.1 it hit)).2.2.1

/-- Witness for C10 at a concrete successful insert of `exItem1`. -/
theorem unit_price_precision_bound_witness :
    exItem1.unit_price.natAbs < 10 ^ 10 :=
  unit_price_precision_bound.1 exDB5b exItem1
    { customers := [exAlice], orders := [exOrder1], order_items := [exItem1] }
    (by decide)
